import Mathlib

/-!
A shallow embedding of the `cly` command-line parsing library
(`src/cly/utils.py`, `src/cly/parsers/parser.py`) and proofs about it.

Python strings are modelled as Lean `String`s; most character-level
operations are carried out on `String.data` (`List Char`) so that every
definition is executable and kernel-reducible.  Python `dict`s keyed by
strings are modelled as association lists with overwrite-or-append
insertion and first-match lookup, which coincides with `dict` semantics
given string keys.  Python exceptions are modelled with `Except` /
explicit error results; an exception raised by library code that the
library itself does not intend (`ValueError` from tuple unpacking,
`UnboundLocalError` from an unassigned local) is modelled by a dedicated
error constructor so that the crash is observable in the model.
-/

namespace Cly

/-- Python `\w` for the ASCII inputs used here: `[a-zA-Z0-9_]`. -/
def isWordChar (c : Char) : Bool :=
  c.isAlphanum || c == '_'

/-- The character class `[\w\-_]` (equivalently `[a-zA-Z0-9\-_]`). -/
def isKeyChar (c : Char) : Bool :=
  isWordChar c || c == '-'

/-- Python `s.startswith(p)`. -/
def pyStartsWith (s p : String) : Bool :=
  p.data.isPrefixOf s.data

/-- Python `str.isalnum()` on a character list: non-empty and all alphanumeric. -/
def pyIsAlnum (cs : List Char) : Bool :=
  !cs.isEmpty && cs.all Char.isAlphanum

/-- Python `s.replace("-", "")` as a character-list filter. -/
def removeHyphens (cs : List Char) : List Char :=
  cs.filter (fun c => c != '-')

/-- Python `s.lower()` (ASCII inputs). -/
def pyLower (s : String) : String :=
  ⟨s.data.map Char.toLower⟩

/-- `dataclass Argument` from `src/cly/utils.py` (lines 22-38).
`value : Any` is typed `Option String` here since the library only ever
stores the user-supplied textual default (or `None`) in it at
registration time. -/
structure Argument where
  long_name : String
  description : String
  dest : String
  short_name : Option String := none
  metavar : Option String := none
  required : Bool := true
  indefinite : Bool := false
  value : Option String := none
deriving DecidableEq, Repr

/-- `dataclass Flag` from `src/cly/utils.py` (lines 41-52). -/
structure Flag where
  long_name : String
  description : String
  dest : String
  short_name : Option String := none
  metavar : Option String := none
  value : Bool := false
deriving DecidableEq, Repr

/-- The registry stores `Union[Flag, Argument]` values. -/
inductive Entry where
  | arg (a : Argument)
  | flag (f : Flag)
deriving DecidableEq, Repr

/-- The `dest` attribute, available on both variants. -/
def Entry.dest : Entry → String
  | .arg a => a.dest
  | .flag f => f.dest

/-- Association-list model of a Python `dict` keyed by strings:
first-match lookup. -/
def dictLookup {α : Type} : List (String × α) → String → Option α
  | [], _ => none
  | (k, v) :: rest, key => if k = key then some v else dictLookup rest key

/-- Python `d[k] = v`: overwrite the existing binding in place, or append. -/
def dictInsert {α : Type} : List (String × α) → String → α → List (String × α)
  | [], key, v => [(key, v)]
  | (k, w) :: rest, key, v =>
    if k = key then (key, v) :: rest else (k, w) :: dictInsert rest key v

/-- Python `k in d`. -/
def dictMem {α : Type} (d : List (String × α)) (key : String) : Bool :=
  (dictLookup d key).isSome

/-- The mutable state of a `Parser` instance: the constructor options that
the algorithms read (`allow_unknown_args`, `strict_mode` from
`self._options`), the name registry `self._registry`, and the
outstanding-required list `self._required_args`. -/
structure ParserState where
  allow_unknown_args : Bool
  strict_mode : Bool
  registry : List (String × Entry) := []
  required_args : List Argument := []
deriving DecidableEq, Repr

/-- A freshly constructed `Parser` (registration never reads the other
constructor options). -/
def mkParser (allow_unknown_args strict_mode : Bool) : ParserState :=
  { allow_unknown_args := allow_unknown_args, strict_mode := strict_mode }

/-- Exception classes raised by the registration API:
`ValueError`, `cly.errors.InvalidLongName`, `cly.errors.InvalidShortName`,
and the generic `Exception("Invalid spec provided")`. -/
inductive RegErr where
  | valueError
  | invalidLongName
  | invalidShortName
  | invalidSpec
deriving DecidableEq, Repr

/-- The shared validation prelude of `Parser.add_argument` (lines 306-350)
and `Parser.add_flag` (lines 450-494): empty-name check, redundancy
checks, then strict-mode style checks, in source order.  Returns the
exception raised, if any. -/
def checkNames (st : ParserState) (long_name : String)
    (short_name : Option String) : Option RegErr :=
  -- `if not len(long_name) > 0 or (short_name is not None and not len(short_name) > 0)`
  if long_name = "" || (match short_name with | some s => s == "" | none => false) then
    some .valueError
  -- `if long_name in self._registry`
  else if dictMem st.registry long_name then
    some .invalidLongName
  -- `if short_name and short_name in self._registry`
  else if (match short_name with
           | some s => s != "" && dictMem st.registry s
           | none => false) then
    some .invalidShortName
  else if st.strict_mode then
    if !pyStartsWith long_name "--" then some .invalidLongName
    else if !pyIsAlnum (removeHyphens long_name.data) then some .invalidLongName
    else
      match short_name with
      | some s =>
        if s ≠ "" then
          if !pyStartsWith s "-" then some .invalidShortName
          else if s.data.length ≠ 2 then some .invalidShortName
          else if !pyIsAlnum (removeHyphens s.data) then some .invalidShortName
          else none
        else none
      | none => none
  else none

/-- `Parser.add_argument` (lines 258-370).  The parser state is threaded
explicitly; each `raise` site returns the state as it stood at the
raise, which in the source is always before any registry mutation. -/
def add_argument (st : ParserState) (long_name description dest : String)
    (short_name : Option String) (metavar : Option String)
    (indefinite : Bool) (default : Option String) :
    ParserState × Except RegErr Argument :=
  match checkNames st long_name short_name with
  | some e => (st, .error e)
  | none =>
    let obj : Argument :=
      { long_name := long_name
        description := description
        short_name := short_name
        metavar := metavar
        dest := dest
        required := default.isNone
        indefinite := indefinite
        value := default }
    let reg := dictInsert st.registry long_name (.arg obj)
    let reg :=
      match short_name with
      | some s => if s ≠ "" then dictInsert reg s (.arg obj) else reg
      | none => reg
    let req :=
      if obj.required then st.required_args ++ [obj] else st.required_args
    ({ st with registry := reg, required_args := req }, .ok obj)

/-- `Parser.add_flag` (lines 418-507). -/
def add_flag (st : ParserState) (long_name description dest : String)
    (short_name : Option String) :
    ParserState × Except RegErr Flag :=
  match checkNames st long_name short_name with
  | some e => (st, .error e)
  | none =>
    let obj : Flag :=
      { long_name := long_name
        description := description
        short_name := short_name
        dest := dest }
    let reg := dictInsert st.registry long_name (.flag obj)
    let reg :=
      match short_name with
      | some s => if s ≠ "" then dictInsert reg s (.flag obj) else reg
      | none => reg
    ({ st with registry := reg }, .ok obj)

/-! ### The token parser (`Parser.parse`, lines 106-256) -/

/-- A value bound into the result tree: a literal token string, the
boolean `True` a flag resolves to, or the list an indefinite argument
collects. -/
inductive Value where
  | str (s : String)
  | bool (b : Bool)
  | list (xs : List String)
deriving DecidableEq, Repr

/-- The result tree `dest -> value`. -/
abbrev Tree := List (String × Value)

/-- How a `parse` call can fail.  The first three model calls of the
local `reject` helper (which prints and raises `SystemExit`); the last
three model exceptions the source raises unintentionally. -/
inductive ParseErr where
  /-- `reject("{token} is an argument and it requires some value to work")`. -/
  | missingValue (token : String)
  /-- `reject("Arguments are allowed only at the last place in shorthand cluster mode")`. -/
  | misplacedArgumentInCluster
  /-- `reject("{name} is not a recognised flag or argument")`. -/
  | unrecognizedOption (name : String)
  /-- Line 253 interpolates the local `flag` before it was ever assigned:
  `UnboundLocalError`, not a `reject` call. -/
  | nameErrorFlagUnbound
  /-- `arg, value = arg.split("=")` with a number of parts other than two:
  `ValueError`, not a `reject` call. -/
  | valueErrorSplit (token : String)
  /-- `self._required_args.remove(obj)` with `obj` absent: `ValueError`. -/
  | valueErrorRemove
deriving DecidableEq, Repr

/-- Python `list.remove`: drop the first element equal to `a`, or raise
`ValueError` (modelled as `none`) when no element matches. -/
def removeFirst : List Argument → Argument → Option (List Argument)
  | [], _ => none
  | x :: xs, a =>
    if x = a then some xs
    else (removeFirst xs a).map (fun l => x :: l)

/-- The nested `resolve` helper (lines 114-117): bind `obj.dest` in the
tree and, when `obj` is a required `Argument`, remove it from the
outstanding-required list. -/
def resolveE (tree : Tree) (req : List Argument) (obj : Entry) (v : Value) :
    Except ParseErr (Tree × List Argument) :=
  let tree' := dictInsert tree obj.dest v
  match obj with
  | .arg a =>
    if a.required then
      match removeFirst req a with
      | some req' => .ok (tree', req')
      | none => .error .valueErrorRemove
    else .ok (tree', req)
  | .flag _ => .ok (tree', req)

/-- `re.match("[\w\-_]+=.+", arg)`: a non-empty run of `[\w\-_]`
characters from the start, immediately followed by `=`, followed by at
least one non-newline character (`re.match` does not anchor the end). -/
def keyValueMatch (s : String) : Bool :=
  let w := s.data.takeWhile isKeyChar
  let rest := s.data.dropWhile isKeyChar
  !w.isEmpty &&
    match rest with
    | '=' :: c :: _ => c != '\n'
    | _ => false

/-- `re.match("-\w+", arg)`: a leading `-` followed by at least one word
character (again only a prefix of the token needs to match). -/
def clusterMatch (s : String) : Bool :=
  match s.data with
  | '-' :: c :: _ => isWordChar c
  | _ => false

/-- Python `str.split("=")`: split on every occurrence of `=`. -/
def splitEq : List Char → List (List Char)
  | [] => [[]]
  | c :: cs =>
    if c = '=' then [] :: splitEq cs
    else
      match splitEq cs with
      | [] => [[c]]
      | p :: ps => (c :: p) :: ps

/-- The value run collected for an indefinite argument (lines 141-144):
every token after position `n` up to, and not including, the first one
that is itself a registered name. -/
def collectIndef (reg : List (String × Entry)) (args : List String) (n : Nat) :
    List String :=
  (args.drop (n + 1)).takeWhile (fun j => !dictMem reg j)

/-- Value consumption for an `Argument` resolved at token position `n`
(lines 139-177, repeated verbatim at lines 202-242 for the cluster
branch).  `token` is the token text used in the rejection message.
Returns the cursor after the consumed values together with the value. -/
def consumeArgValue (st : ParserState) (args : List String) (n : Nat)
    (a : Argument) (token : String) : Except ParseErr (Nat × Value) :=
  if a.indefinite then
    let vs := collectIndef st.registry args n
    if vs.isEmpty then .error (.missingValue token)
    else .ok (n + vs.length, .list vs)
  else
    let n' := n + 1
    match args.get? n' with
    | none => .error (.missingValue token)
    | some v =>
      if v = "" || pyStartsWith v "-" then .error (.missingValue token)
      else .ok (n', .str v)

/-- The `for flag in flags` loop of the cluster branch (lines 190-251).
`token` is the whole cluster token (used in messages), `lastC` is
`flags[-1]`.  The `Option String` accumulator is the Python local
`flag`, recorded because line 253 reads it after the loop. -/
def clusterLoop (st : ParserState) (args : List String) (token : String)
    (lastC : Char) :
    List Char → Nat → Tree → List Argument → Option String →
    Except ParseErr (Nat × Tree × List Argument × Option String)
  | [], n, tree, req, lf => .ok (n, tree, req, lf)
  | c :: cs, n, tree, req, _ =>
    let fl : String := ⟨['-', c]⟩
    match dictLookup st.registry fl with
    | some (.flag f) =>
      match resolveE tree req (.flag f) (.bool true) with
      | .error e => .error e
      | .ok (tree', req') =>
        clusterLoop st args token lastC cs n tree' req' (some fl)
    | some (.arg a) =>
      -- `elif flag[1:] == flags[-1]`: character equality with the last
      -- character of the cluster, not a positional check.
      if c = lastC then
        match consumeArgValue st args n a token with
        | .error e => .error e
        | .ok (n', v) =>
          match resolveE tree req (.arg a) v with
          | .error e => .error e
          | .ok (tree', req') =>
            clusterLoop st args token lastC cs n' tree' req' (some fl)
      else .error .misplacedArgumentInCluster
    | none =>
      if !st.allow_unknown_args then .error (.unrecognizedOption fl)
      else clusterLoop st args token lastC cs n tree req (some fl)

/-- One iteration of the `while n < len(args)` scan (lines 131-255),
given the current token `arg = args[n]`: the four resolution branches in
source order.  Returns the cursor before the trailing `n += 1`, the
updated tree and required list, and the `flag` local. -/
def parseStep (st : ParserState) (args : List String) (arg : String)
    (n : Nat) (tree : Tree) (req : List Argument) (lf : Option String) :
    Except ParseErr (Nat × Tree × List Argument × Option String) :=
  match dictLookup st.registry arg with
  | some (.flag f) =>
    match resolveE tree req (.flag f) (.bool true) with
    | .error e => .error e
    | .ok (tree', req') => .ok (n, tree', req', lf)
  | some (.arg a) =>
    match consumeArgValue st args n a arg with
    | .error e => .error e
    | .ok (n', v) =>
      match resolveE tree req (.arg a) v with
      | .error e => .error e
      | .ok (tree', req') => .ok (n', tree', req', lf)
  | none =>
    if keyValueMatch arg then
      match splitEq arg.data with
      | [name, value] =>
        let name : String := ⟨name⟩
        match dictLookup st.registry name with
        | some obj =>
          match resolveE tree req obj (.str ⟨value⟩) with
          | .error e => .error e
          | .ok (tree', req') => .ok (n, tree', req', lf)
        | none => .ok (n, tree, req, lf)
      | _ => .error (.valueErrorSplit arg)
    else if st.strict_mode && clusterMatch arg then
      match arg.data with
      | _ :: c :: rest =>
        clusterLoop st args arg ((c :: rest).getLastD c) (c :: rest) n tree req lf
      | _ => .ok (n, tree, req, lf)   -- unreachable: clusterMatch guarantees two chars
    else if !st.allow_unknown_args then
      match lf with
      | some f => .error (.unrecognizedOption f)
      | none => .error .nameErrorFlagUnbound
    else .ok (n, tree, req, lf)

/-- Outcome of running the scan loop with a given amount of fuel.
`diverge` marks fuel exhaustion with tokens still pending; the
sufficiency theorem shows it never arises with fuel `args.length`. -/
inductive POut where
  | ok (tree : Tree)
  | err (e : ParseErr)
  | diverge
deriving DecidableEq, Repr

/-- The `while n < len(args)` loop, fuelled.  After a successful step the
cursor advances by the branch increment plus the trailing `n += 1`. -/
def parseLoopFuel (st : ParserState) (args : List String) :
    Nat → Nat → Tree → List Argument → Option String → POut
  | fuel, n, tree, req, lf =>
    match args.get? n with
    | none => .ok tree
    | some arg =>
      match fuel with
      | 0 => .diverge
      | fuel + 1 =>
        match parseStep st args arg n tree req lf with
        | .error e => .err e
        | .ok (n', tree', req', lf') =>
          parseLoopFuel st args fuel (n' + 1) tree' req' lf'

/-- `Parser.parse` on an explicit token list: scan from cursor 0 with an
empty tree, the instance's outstanding-required list, and the local
`flag` not yet assigned.  Fuel `args.length` is enough (see the
termination theorem). -/
def parse (st : ParserState) (args : List String) : POut :=
  parseLoopFuel st args args.length 0 [] st.required_args none

/-! ### The help formatter (`gen_help`, `src/cly/utils.py` lines 55-110) -/

/-- The `while left_column != "" or right_column != ""` layout loop,
fuelled.  Each iteration emits one output line: a left chunk (padded to
`lw` when it is the final one), two separator spaces, a right chunk, and
a newline.  `none` models the loop never finishing (it cannot, with the
fuel chosen below, unless a width is zero while its column still holds
text — in which case the Python loop really does not terminate). -/
def genHelpLoop (lw rw : Nat) :
    Nat → List Char → List Char → List Char → Option (List Char)
  | fuel, l, r, acc =>
    if l.isEmpty && r.isEmpty then some acc
    else
      match fuel with
      | 0 => none
      | fuel + 1 =>
        let (acc, l) :=
          if l.length ≤ lw then
            (acc ++ l ++ List.replicate (lw - l.length) ' ', [])
          else (acc ++ l.take lw, l.drop lw)
        let acc := acc ++ [' ', ' ']
        let (acc, r) :=
          if r.length ≤ rw then (acc ++ r, [])
          else (acc ++ r.take rw, r.drop rw)
        genHelpLoop lw rw fuel l r (acc ++ ['\n'])

/-- `gen_help(inst, left_width, right_width)` for caller-supplied
positive widths.  (When a width argument is `0`/omitted, the source
derives it from the live terminal size, an environment interaction out
of scope here; on an explicitly supplied integer width, Python's
`round` is the identity.) -/
def gen_help (inst : Entry) (left_width right_width : Nat) : Option String :=
  -- `s_name = (inst.short_name and (", " + inst.short_name)) or ""`
  let s_name :=
    match (match inst with | .arg a => a.short_name | .flag f => f.short_name) with
    | some s => if s = "" then "" else ", " ++ s
    | none => ""
  let left_column :=
    (match inst with | .arg a => a.long_name | .flag f => f.long_name) ++ s_name
  let right_column :=
    match inst with | .arg a => a.description | .flag f => f.description
  -- `if type(inst) == Argument and inst.metavar:`
  let left_column :=
    match inst with
    | .arg a =>
      match a.metavar with
      | some mv =>
        if mv = "" then left_column
        else if a.indefinite then
          left_column ++ "  <" ++ mv ++ "1> <" ++ mv ++ "2> ... <" ++ mv ++ "n>"
        else left_column ++ " <" ++ mv ++ ">"
      | none => left_column
    | .flag _ => left_column
  let l := left_column.data
  let r := right_column.data
  (genHelpLoop left_width right_width (l.length + r.length + 1) l r []).map
    (fun cs => (⟨cs⟩ : String))

/-! ### The spec-string sugar (`Parser.add_arg`, lines 372-416)

`SPEC_RE` is
`(?P<long_name>[a-zA-Z0-9\-_]+)( (?P<short_name>[a-zA-Z0-9\-_]+))? `
`(?P<description>\[.+(?<!\\)\])(, (?P<metavar>[\w\-_]+))?`
`(, (?P<indefinite>[a-zA-Z]+)(, (?P<default>.+))?)?`
matched with `re.match` (anchored at the start only).  The matcher below
implements its leftmost-greedy semantics directly:

* the name runs are maximal, and need no backtracking because the
  character that must follow each run (a space or `,`) is outside the
  run's character class;
* `.+` inside the description group backtracks from the right, so the
  group closes at the *last* `]` that is not preceded by a backslash and
  has no newline before it;
* every group after the description is optional and everything after it
  can also match the empty string, so a group that locally matches is
  kept (greedy) and a group that locally fails is skipped;
* a trailing unmatched suffix is fine, because nothing anchors the end.
-/

/-- Index of the `]` at which the greedy `.+(?<!\\)\]` closes, inside the
text after the opening `[`: the largest `j ≥ 1` with `dr[j] = ']'`,
`dr[j-1] ≠ '\\'`, and no newline among `dr[0..j-1]`. -/
def lastValidClose (dr : List Char) : Option Nat :=
  (List.range dr.length).foldl
    (fun best j =>
      if 1 ≤ j && dr.get? j == some ']' && dr.get? (j - 1) != some '\\'
          && (dr.take j).all (fun c => c != '\n')
      then some j else best)
    none

/-- The named captures of `SPEC_RE` (the description is captured without
its enclosing brackets, mirroring the `[1:-1]` slice the caller applies
to the raw group). -/
structure SpecGroups where
  long_name : String
  short_name : Option String
  descInner : List Char
  metavar : Option String
  indefinite : Option String
  default : Option String
deriving DecidableEq, Repr

/-- `re.match(SPEC_RE, spec)` as a named-capture record (`none` when the
regex does not match). -/
def specMatch (spec : String) : Option SpecGroups :=
  let cs := spec.data
  let ln := cs.takeWhile isKeyChar
  let r1 := cs.dropWhile isKeyChar
  if ln.isEmpty then none
  else
    -- optional `( (?P<short_name>[a-zA-Z0-9\-_]+))?` then the mandatory space
    let step2 : Option (Option (List Char) × List Char) :=
      match r1 with
      | ' ' :: r =>
        let sn := r.takeWhile isKeyChar
        let r' := r.dropWhile isKeyChar
        if sn.isEmpty then some (none, r)
        else
          match r' with
          | ' ' :: r'' => some (some sn, r'')
          | _ => none
      | _ => none
    match step2 with
    | none => none
    | some (sn, d0) =>
      match d0 with
      | '[' :: dr =>
        match lastValidClose dr with
        | none => none
        | some j =>
          let inner := dr.take j
          let rest := dr.drop (j + 1)
          -- `(, (?P<metavar>[\w\-_]+))?`
          let (mv, r3) :=
            match rest with
            | ',' :: ' ' :: r =>
              let m := r.takeWhile isKeyChar
              if m.isEmpty then (none, rest) else (some m, r.dropWhile isKeyChar)
            | _ => (none, rest)
          -- `(, (?P<indefinite>[a-zA-Z]+)(, (?P<default>.+))?)?`
          let (ind, dfl) :=
            match r3 with
            | ',' :: ' ' :: r =>
              let i := r.takeWhile Char.isAlpha
              if i.isEmpty then (none, none)
              else
                match r.dropWhile Char.isAlpha with
                | ',' :: ' ' :: r'' =>
                  let d := r''.takeWhile (fun c => c != '\n')
                  if d.isEmpty then (some i, none) else (some i, some d)
                | _ => (some i, none)
            | _ => (none, none)
          some
            { long_name := ⟨ln⟩
              short_name := sn.map (fun l => (⟨l⟩ : String))
              descInner := inner
              metavar := mv.map (fun l => (⟨l⟩ : String))
              indefinite := ind.map (fun l => (⟨l⟩ : String))
              default := dfl.map (fun l => (⟨l⟩ : String)) }
      | _ => none

/-- Worker for `replaceAll`: when `skip` is positive the character is
part of an occurrence already replaced and is dropped. -/
def replaceAllAux (old new : List Char) : List Char → Nat → List Char
  | [], _ => []
  | _ :: cs, Nat.succ k => replaceAllAux old new cs k
  | c :: cs, 0 =>
    if old ≠ [] ∧ old.isPrefixOf (c :: cs) then
      new ++ replaceAllAux old new cs (old.length - 1)
    else c :: replaceAllAux old new cs 0

/-- Python `s.replace(old, new)`: replace every non-overlapping
occurrence, scanning left to right. -/
def replaceAll (old new : List Char) (l : List Char) : List Char :=
  replaceAllAux old new l 0

/-- `Parser.add_arg(spec, dest)` (lines 372-416): match `SPEC_RE`,
coerce `indefinite` (`str(...).lower() == "true"`, so an absent group —
`str(None)` — is false), strip and unescape the description, and
delegate to `add_argument`. -/
def add_arg (st : ParserState) (spec dest : String) :
    ParserState × Except RegErr Argument :=
  match specMatch spec with
  | none => (st, .error .invalidSpec)
  | some g =>
    let indefinite :=
      match g.indefinite with
      | some s => pyLower s == "true"
      | none => false
    let description : String :=
      ⟨replaceAll ['\\', ']'] [']'] (replaceAll ['\\', '['] ['['] g.descInner)⟩
    add_argument st g.long_name description dest g.short_name g.metavar
      indefinite g.default

instance {ε α : Type} [DecidableEq ε] [DecidableEq α] :
    DecidableEq (Except ε α)
  | .ok a, .ok b =>
    if h : a = b then .isTrue (by rw [h]) else .isFalse (by simp [h])
  | .error e, .error f =>
    if h : e = f then .isTrue (by rw [h]) else .isFalse (by simp [h])
  | .ok _, .error _ => .isFalse (by simp)
  | .error _, .ok _ => .isFalse (by simp)

/-! ### Concrete example registries used by the theorems -/

/-- A strict parser with `allow_unknown_args = False`. -/
def egStrict : ParserState := mkParser false true

/-- Strict parser with flag `--beta`/`-b` (dest `b`) and required
argument `--alpha`/`-a` (dest `a`). -/
def egClusterState : ParserState :=
  (add_argument (add_flag egStrict "--beta" "a flag" "b" (some "-b")).1
    "--alpha" "an arg" "a" (some "-a") none false none).1

/-- Strict parser with the optional (defaulted) argument `--alpha`/`-a`. -/
def egOptArgState : ParserState :=
  (add_argument egStrict "--alpha" "an arg" "a" (some "-a") none false
    (some "d")).1

/-- Strict parser with the indefinite required argument `--tags`. -/
def egTagsState : ParserState :=
  (add_argument egStrict "--tags" "tag list" "tags" none none true none).1

/-- Strict parser with flag `--verbose`/`-v` (dest `v`). -/
def egVerboseState : ParserState :=
  (add_flag egStrict "--verbose" "verbose" "v" (some "-v")).1

/-- Same registry but with `allow_unknown_args = True`. -/
def egVerboseAllowState : ParserState :=
  (add_flag (mkParser true true) "--verbose" "verbose" "v" (some "-v")).1

/-! ### C1 — strict-mode clusters and misplaced arguments -/

/-- C1, counterexample.  The claim's own example is wrong on the code: in
`["-ba", "file.txt"]` the argument `-a` *is* the last cluster character,
so the parse succeeds (binding `-a` to `"file.txt"`) instead of
rejecting with `MisplacedArgumentInCluster`. -/
theorem cluster_ba_example_not_misplaced :
    parse egClusterState ["-ba", "file.txt"] ≠
      POut.err ParseErr.misplacedArgumentInCluster := by
  decide

/-- C1, amended.  The cluster branch compares an Argument character with
the cluster's **last character** (`flag[1:] == flags[-1]`), so: an
Argument character that differs from the last character is rejected with
`MisplacedArgumentInCluster` (e.g. `["-ab", "file.txt"]`); an Argument
character equal to the last character is accepted and consumes the value
(e.g. `["-ba", "file.txt"]` binds `-a` to `"file.txt"`), even when it
occurs before the last position (in `["-aa", "v", "w"]` the first `a`
already consumes `"v"`, the second then consumes `"w"`). -/
theorem cluster_argument_char_equality_rule :
    parse egClusterState ["-ab", "file.txt"] =
        POut.err ParseErr.misplacedArgumentInCluster ∧
      parse egClusterState ["-ba", "file.txt"] =
        POut.ok [("b", Value.bool true), ("a", Value.str "file.txt")] ∧
      parse egOptArgState ["-aa", "v", "w"] =
        POut.ok [("a", Value.str "w")] := by
  refine ⟨by decide, by decide, by decide⟩

/-! ### C2 — the default-value spec string -/

/-- C2, code bug.  On the spec string
`"--long-name -s [description], false, default value"` the greedy
`metavar` group of `SPEC_RE` captures `"false"` and the `indefinite`
group captures `"default"`, so no `default` is captured at all: the
registered argument has `metavar = "false"`, `required = true` and
`value = None`, contradicting the library's own test
(`test_arg_method.py::test_default_parameter`, which expects
`required = False` and `value = "default value"`). -/
theorem add_arg_default_spec_mismatch :
    (add_arg egStrict "--long-name -s [description], false, default value"
        "dest").2 =
      .ok { long_name := "--long-name"
            description := "description"
            dest := "dest"
            short_name := some "-s"
            metavar := some "false"
            required := true
            indefinite := false
            value := none } := by
  decide

/-! ### C3 — rejection of unrecognized plain tokens -/

/-- C3, code bug.  The branch-4 rejection (line 253) interpolates the
local `flag`, not the offending token `arg`: on the first unmatched
plain token the local is unbound (`UnboundLocalError` instead of any
rejection), and after a processed cluster it names the stale last
cluster short-name instead of the token.  With
`allow_unknown_args = True` the token is silently skipped, as claimed. -/
theorem unknown_token_reject_uses_stale_flag_local :
    parse egClusterState ["hello"] = POut.err ParseErr.nameErrorFlagUnbound ∧
      parse egClusterState ["-bb", "world"] =
        POut.err (ParseErr.unrecognizedOption "-b") ∧
      parse egVerboseAllowState ["hello"] = POut.ok [] := by
  refine ⟨by decide, by decide, by decide⟩

/-! ### C8 — the two-column help layout -/

/-- C8.  `gen_help` on an Argument with `long_name="--name"`,
`short_name="-n"`, `description="Some good description"` and widths
10/22 yields exactly `"--name, -n  Some good description\n"`: the left
column fills its width (no padding), two separator spaces, the
description, one newline. -/
theorem gen_help_two_column_example :
    gen_help
        (.arg { long_name := "--name", description := "Some good description",
                dest := "name", short_name := some "-n" }) 10 22 =
      some "--name, -n  Some good description\n" := by
  decide

/-! ### C4 — atomicity of registration -/

/-- C4.  Registration is atomic: every failing `add_argument` or
`add_flag` call (empty name, redundant name, strict-mode style
violation — i.e. any raised registration error) leaves the parser state,
and with it the registry and the outstanding-required list, exactly as
it was. -/
theorem registration_failure_leaves_state_unchanged
    (st : ParserState) (ln d dst : String) (sn mv : Option String)
    (ind : Bool) (df : Option String) (e e' : RegErr) :
    ((add_argument st ln d dst sn mv ind df).2 = .error e →
      (add_argument st ln d dst sn mv ind df).1 = st) ∧
    ((add_flag st ln d dst sn).2 = .error e' →
      (add_flag st ln d dst sn).1 = st) := by
  constructor
  · intro h
    cases hc : checkNames st ln sn with
    | some r => simp [add_argument, hc]
    | none => simp [add_argument, hc] at h
  · intro h
    cases hc : checkNames st ln sn with
    | some r => simp [add_flag, hc]
    | none => simp [add_flag, hc] at h

/-- C4, witness: the empty long name is rejected with `ValueError` and
the state is untouched, for both registration entry points. -/
theorem registration_failure_leaves_state_unchanged_witness :
    (add_argument egStrict "" "x" "d" none none false none).1 = egStrict ∧
      (add_flag egStrict "" "x" "d" none).1 = egStrict :=
  ⟨(registration_failure_leaves_state_unchanged egStrict "" "x" "d" none none
      false none .valueError .valueError).1 (by decide),
    (registration_failure_leaves_state_unchanged egStrict "" "x" "d" none none
      false none .valueError .valueError).2 (by decide)⟩

/-! ### C5 — required iff no default -/

/-- C5.  A successful `add_argument` yields `required = true` exactly
when no default was supplied (`None`); any supplied default — the empty
string included — makes the argument optional; and the outstanding-
required list is extended by exactly the required argument (and is
untouched otherwise). -/
theorem add_argument_required_iff_no_default
    (st : ParserState) (ln d dst : String) (sn mv : Option String)
    (ind : Bool) (df : Option String) (a : Argument) :
    (add_argument st ln d dst sn mv ind df).2 = .ok a →
      a.required = df.isNone ∧
        (add_argument st ln d dst sn mv ind df).1.required_args =
          st.required_args ++ (if a.required then [a] else []) := by
  intro h
  cases hc : checkNames st ln sn with
  | some r => simp [add_argument, hc] at h
  | none =>
    simp [add_argument, hc] at h ⊢
    subst h
    cases df <;> simp

/-- C5, witness: a default of `""` still yields `required = false` and
leaves the outstanding-required list unchanged. -/
theorem add_argument_required_iff_no_default_witness :
    ({ long_name := "--opt", description := "x", dest := "o",
       short_name := none, metavar := none, required := false,
       indefinite := false, value := some "" } : Argument).required =
        (some "" : Option String).isNone ∧
      (add_argument egStrict "--opt" "x" "o" none none false
          (some "")).1.required_args =
        egStrict.required_args ++
          (if ({ long_name := "--opt", description := "x", dest := "o",
                 short_name := none, metavar := none, required := false,
                 indefinite := false, value := some "" } : Argument).required
           then [{ long_name := "--opt", description := "x", dest := "o",
                   short_name := none, metavar := none, required := false,
                   indefinite := false, value := some "" }]
           else []) :=
  add_argument_required_iff_no_default egStrict "--opt" "x" "o" none none
    false (some "")
    { long_name := "--opt", description := "x", dest := "o",
      short_name := none, metavar := none, required := false,
      indefinite := false, value := some "" } (by decide)

/-! ### C6 — indefinite value collection -/

/-- C6.  An exact-match token resolving to an indefinite Argument makes
the scan collect every following token up to (not including) the next
registered name, bind the argument's `dest` to that list, and move the
cursor past all collected tokens (the loop then adds its usual `+ 1`);
concretely, `["--tags", "a", "b", "c"]` with `--tags` indefinite yields
`tags ↦ ["a", "b", "c"]`. -/
theorem indefinite_argument_collection :
    (∀ (st : ParserState) (args : List String) (arg : String) (n : Nat)
        (tree : Tree) (req req' : List Argument) (lf : Option String)
        (a : Argument),
      dictLookup st.registry arg = some (.arg a) →
      a.indefinite = true →
      (if a.required then removeFirst req a else some req) = some req' →
      collectIndef st.registry args n ≠ [] →
      parseStep st args arg n tree req lf =
        .ok (n + (collectIndef st.registry args n).length,
          dictInsert tree a.dest (.list (collectIndef st.registry args n)),
          req', lf)) ∧
      parse egTagsState ["--tags", "a", "b", "c"] =
        POut.ok [("tags", Value.list ["a", "b", "c"])] := by
  constructor
  · intro st args arg n tree req req' lf a hlook hindef hrem hne
    have hvs : (collectIndef st.registry args n).isEmpty = false := by
      cases hcol : collectIndef st.registry args n with
      | nil => exact absurd hcol hne
      | cons x xs => rfl
    cases hreqd : a.required with
    | true =>
      rw [hreqd] at hrem
      simp at hrem
      simp [parseStep, hlook, consumeArgValue, hindef, hvs, resolveE,
        Entry.dest, hreqd, hrem]
    | false =>
      rw [hreqd] at hrem
      simp at hrem
      simp [parseStep, hlook, consumeArgValue, hindef, hvs, resolveE,
        Entry.dest, hreqd, hrem]
  · decide

/-- C6, witness: a concrete mid-scan step on
`["--tags", "a", "b"]` at cursor 0 collects both values, binds
`tags`, and leaves the cursor on the last collected token. -/
theorem indefinite_argument_collection_witness :
    parseStep egTagsState ["--tags", "a", "b"] "--tags" 0 []
      egTagsState.required_args none =
      .ok (2, [("tags", Value.list ["a", "b"])], [], none) :=
  indefinite_argument_collection.1 egTagsState ["--tags", "a", "b"] "--tags"
    0 [] egTagsState.required_args [] none
    { long_name := "--tags", description := "tag list", dest := "tags",
      short_name := none, metavar := none, required := true,
      indefinite := true, value := none }
    (by decide) (by decide) (by decide) (by decide)

/-! ### C7 — what a Flag resolves to -/

/-- C7, counterexample.  The `key=value` branch binds the registered
flag's `dest` to the literal right-hand string, not to boolean true:
`["--verbose=no"]` resolves `v` to the string `"no"`. -/
theorem flag_key_value_binds_literal_string :
    parse egVerboseState ["--verbose=no"] = POut.ok [("v", Value.str "no")] ∧
      Value.str "no" ≠ Value.bool true := by
  refine ⟨by decide, by decide⟩

/-- C7, amended.  A Flag matched by the exact-match branch (and likewise
by the cluster branch) always binds its `dest` to boolean true, but the
`key=value` branch bypasses the flag check and binds the literal
right-hand string. -/
theorem flag_resolution_amended :
    (∀ (st : ParserState) (args : List String) (arg : String) (n : Nat)
        (tree : Tree) (req : List Argument) (lf : Option String) (f : Flag),
      dictLookup st.registry arg = some (.flag f) →
      parseStep st args arg n tree req lf =
        .ok (n, dictInsert tree f.dest (.bool true), req, lf)) ∧
      parse egVerboseState ["-vv"] = POut.ok [("v", Value.bool true)] ∧
      parse egVerboseState ["--verbose=no"] =
        POut.ok [("v", Value.str "no")] := by
  refine ⟨?_, by decide, by decide⟩
  intro st args arg n tree req lf f hlook
  simp [parseStep, hlook, resolveE, Entry.dest]

/-- C7, witness: the exact-match branch on `--verbose` binds `v` to
boolean true. -/
theorem flag_resolution_amended_witness :
    parseStep egVerboseState [] "--verbose" 0 [] [] none =
      .ok (0, [("v", Value.bool true)], [], none) :=
  flag_resolution_amended.1 egVerboseState [] "--verbose" 0 [] [] none
    { long_name := "--verbose", description := "verbose", dest := "v",
      short_name := some "-v" } (by decide)

/-! ### C9 — termination of the scan loop -/

/-- Value consumption never moves the cursor backwards. -/
theorem consumeArgValue_le (st : ParserState) (args : List String) (n : Nat)
    (a : Argument) (token : String) (n' : Nat) (v : Value)
    (h : consumeArgValue st args n a token = .ok (n', v)) : n ≤ n' := by
  unfold consumeArgValue at h
  dsimp only at h
  split at h
  · split at h
    · simp at h
    · rw [Except.ok.injEq, Prod.mk.injEq] at h
      omega
  · split at h
    · simp at h
    · split at h
      · simp at h
      · rw [Except.ok.injEq, Prod.mk.injEq] at h
        omega

/-- The cluster character loop never moves the cursor backwards. -/
theorem clusterLoop_le (st : ParserState) (args : List String)
    (token : String) (lastC : Char) (cs : List Char) :
    ∀ (n : Nat) (tree : Tree) (req : List Argument) (lf : Option String)
      (n' : Nat) (tree' : Tree) (req' : List Argument) (lf' : Option String),
      clusterLoop st args token lastC cs n tree req lf =
        .ok (n', tree', req', lf') → n ≤ n' := by
  induction cs with
  | nil =>
    intro n tree req lf n' tree' req' lf' h
    rw [clusterLoop, Except.ok.injEq, Prod.mk.injEq] at h
    omega
  | cons c cs ih =>
    intro n tree req lf n' tree' req' lf' h
    rw [clusterLoop] at h
    split at h
    · split at h
      · simp at h
      · exact ih n _ _ _ n' tree' req' lf' h
    · split at h
      · split at h
        · simp at h
        · next n1 v heq =>
          split at h
          · simp at h
          · exact le_trans (consumeArgValue_le st args n _ token n1 v heq)
              (ih n1 _ _ _ n' tree' req' lf' h)
      · simp at h
    · split at h
      · simp at h
      · exact ih n tree req _ n' tree' req' lf' h

/-- One scan step never moves the cursor backwards. -/
theorem parseStep_le (st : ParserState) (args : List String) (arg : String)
    (n : Nat) (tree : Tree) (req : List Argument) (lf : Option String)
    (n' : Nat) (tree' : Tree) (req' : List Argument) (lf' : Option String)
    (h : parseStep st args arg n tree req lf = .ok (n', tree', req', lf')) :
    n ≤ n' := by
  unfold parseStep at h
  dsimp only at h
  split at h
  · split at h
    · simp at h
    · rw [Except.ok.injEq, Prod.mk.injEq] at h
      omega
  · split at h
    · simp at h
    · next n1 v heq =>
      split at h
      · simp at h
      · rw [Except.ok.injEq, Prod.mk.injEq] at h
        have := consumeArgValue_le st args n _ arg n1 v heq
        omega
  · split at h
    · split at h
      · split at h
        · split at h
          · simp at h
          · rw [Except.ok.injEq, Prod.mk.injEq] at h
            omega
        · rw [Except.ok.injEq, Prod.mk.injEq] at h
          omega
      · simp at h
    · split at h
      · split at h
        · exact clusterLoop_le st args arg _ _ n tree req lf n' tree' req'
            lf' h
        · rw [Except.ok.injEq, Prod.mk.injEq] at h
          omega
      · split at h
        · split at h
          · simp at h
          · simp at h
        · rw [Except.ok.injEq, Prod.mk.injEq] at h
          omega

/-- C9.  The scan loop terminates: each iteration advances the cursor by
at least the trailing `n += 1`, so fuel `args.length - n` (in
particular, `args.length` from a fresh call) is always enough — the
fuelled loop never reports divergence. -/
theorem parse_fuel_sufficient (st : ParserState) (args : List String) :
    ∀ (fuel n : Nat) (tree : Tree) (req : List Argument) (lf : Option String),
      args.length - n ≤ fuel →
      parseLoopFuel st args fuel n tree req lf ≠ POut.diverge := by
  intro fuel
  induction fuel with
  | zero =>
    intro n tree req lf hle
    have hn : args.get? n = none := by
      apply List.get?_eq_none.mpr
      omega
    rw [parseLoopFuel, hn]
    simp
  | succ fuel ih =>
    intro n tree req lf hle
    cases hg : args.get? n with
    | none =>
      rw [parseLoopFuel, hg]
      simp
    | some arg =>
      rw [parseLoopFuel, hg]
      dsimp only
      cases hs : parseStep st args arg n tree req lf with
      | error e => simp [hs]
      | ok out =>
        obtain ⟨n', tree', req', lf'⟩ := out
        have hmono : n ≤ n' :=
          parseStep_le st args arg n tree req lf n' tree' req' lf' hs
        have hlt : n < args.length := by
          by_contra hcon
          rw [List.get?_eq_none.mpr (by omega)] at hg
          exact Option.noConfusion hg
        dsimp only
        exact ih (n' + 1) tree' req' lf' (by omega)

/-- C9, witness: two tokens parse to completion with fuel 2. -/
theorem parse_fuel_sufficient_witness :
    parseLoopFuel egVerboseState ["-v", "x"] 2 0 [] [] none ≠
      POut.diverge :=
  parse_fuel_sufficient egVerboseState ["-v", "x"] 2 0 [] [] none
    (by decide)

/-! ### C10 — unregistered `key=value` tokens -/

/-- `=` is not a key character. -/
theorem isKeyChar_eq_false : isKeyChar '=' = false := by decide

/-- A run of key characters followed by `=` is taken whole by
`takeWhile isKeyChar`. -/
theorem takeWhile_key_run (name rest : List Char)
    (h : name.all isKeyChar = true) :
    (name ++ '=' :: rest).takeWhile isKeyChar = name := by
  induction name with
  | nil => simp [List.takeWhile, isKeyChar_eq_false]
  | cons c cs ih =>
    simp only [List.all_cons, Bool.and_eq_true] at h
    simp [List.takeWhile, h.1, ih h.2]

/-- Likewise, `dropWhile isKeyChar` drops exactly the run. -/
theorem dropWhile_key_run (name rest : List Char)
    (h : name.all isKeyChar = true) :
    (name ++ '=' :: rest).dropWhile isKeyChar = '=' :: rest := by
  induction name with
  | nil => simp [List.dropWhile, isKeyChar_eq_false]
  | cons c cs ih =>
    simp only [List.all_cons, Bool.and_eq_true] at h
    simp [List.dropWhile, h.1, ih h.2]

/-- `split("=")` of a text with no `=` is the whole text. -/
theorem splitEq_no_eq (l : List Char) (h : '=' ∉ l) : splitEq l = [l] := by
  induction l with
  | nil => rfl
  | cons c cs ih =>
    simp only [List.mem_cons, not_or] at h
    rw [splitEq, if_neg (fun hc => h.1 hc.symm), ih h.2]

/-- `split("=")` around the first `=`. -/
theorem splitEq_append (name value : List Char) (h : '=' ∉ name) :
    splitEq (name ++ '=' :: value) = name :: splitEq value := by
  induction name with
  | nil => simp [splitEq]
  | cons c cs ih =>
    simp only [List.mem_cons, not_or] at h
    rw [List.cons_append, splitEq, if_neg (fun hc => h.1 hc.symm),
      ih h.2]

/-- C10, counterexample.  The claim fails for a `name=value` token whose
value itself contains `=`: the two-way unpacking of `split("=")` then
raises an uncaught `ValueError`, so `["a=b=c"]` crashes the parse
instead of being silently skipped. -/
theorem key_value_multiple_equals_crashes :
    parse egVerboseState ["a=b=c"] =
      POut.err (ParseErr.valueErrorSplit "a=b=c") := by
  decide

/-- C10, amended.  A token `name=value` whose name part is a non-empty
run of word/hyphen/underscore characters, whose value is non-empty,
does not start with a newline and contains no further `=`, and whose
name is not registered, is silently skipped even with
`allow_unknown_args = false`: the step leaves the cursor, the result
tree and the required list untouched, and the scan continues with the
next token.  (A value containing `=` instead crashes the unpacking.) -/
theorem unregistered_key_value_token_skipped
    (st : ParserState) (args : List String) (n : Nat) (tree : Tree)
    (req : List Argument) (lf : Option String) (name : List Char)
    (c : Char) (value' : List Char)
    (hc : c ≠ '\n')
    (hname : name ≠ [])
    (hkey : name.all isKeyChar = true)
    (hval : '=' ∉ c :: value')
    (htok : dictLookup st.registry ⟨name ++ '=' :: c :: value'⟩ = none)
    (hn : dictLookup st.registry ⟨name⟩ = none) :
    parseStep st args ⟨name ++ '=' :: c :: value'⟩ n tree req lf =
      .ok (n, tree, req, lf) := by
  have hnm : '=' ∉ name := by
    intro hmem
    have := List.all_eq_true.mp hkey '=' hmem
    simp [isKeyChar_eq_false] at this
  have hkv : keyValueMatch ⟨name ++ '=' :: c :: value'⟩ = true := by
    unfold keyValueMatch
    dsimp only
    rw [takeWhile_key_run name (c :: value') hkey,
      dropWhile_key_run name (c :: value') hkey]
    simp [hname, hc]
  have hsplit : splitEq (name ++ '=' :: c :: value') = [name, c :: value'] := by
    rw [splitEq_append name (c :: value') hnm, splitEq_no_eq (c :: value') hval]
  simp only [parseStep, htok, hkv, hsplit, hn, if_true]

/-- C10, witness: with a flag registry, the unregistered token `a=b` is
skipped in place. -/
theorem unregistered_key_value_token_skipped_witness :
    parseStep egVerboseState [] ⟨['a'] ++ '=' :: 'b' :: []⟩ 0 [] [] none =
      .ok (0, [], [], none) :=
  unregistered_key_value_token_skipped egVerboseState [] 0 [] [] none
    ['a'] 'b' [] (by decide) (by decide) (by decide) (by decide)
    (by decide) (by decide)

end Cly
